import Mathlib

/-!
Verification of the HyperSol assets-registry client specification.

The repository excerpt contains the Pyth oracle IDL (embedded below as
`pythIdl`) and a test suite exercising an on-chain manager program. The
manager program itself is not part of the excerpt, so its operations are
modelled from the specification text and from the observable behaviour the
test suite asserts. Identities (public keys) are modelled as natural
numbers, with 0 playing the role of the default (all-zero) public key.
-/

namespace HyperSol

/-- Maximum value of an unsigned 64-bit integer, mirroring the test constant
MAX_U64. -/
def MAX_U64 : Nat := 2 ^ 64 - 1

/-- Sentinel identity standing for the default (all-zero) public key; an
asset whose feed address equals it has no price feed. -/
def DEFAULT_PUBLIC_KEY : Nat := 0

/-- Initial price of the base-unit (USD) asset, mirroring the test constant
USDT_VALUE_U64. -/
def USDT_VALUE_U64 : Nat := 10000

/-- Modelled from the spec: the AssetEntry record of section 3 of the spec
(the on-chain account layout is not in the excerpt). Field names follow the
decoded entries used by the tests. -/
structure Asset where
  assetAddress : Nat
  feedAddress : Nat
  decimals : Nat
  maxSupply : Nat
  supply : Nat
  price : Nat
  lastUpdate : Nat
deriving DecidableEq, Repr

/-- Modelled from the spec: the AssetsList of section 3 of the spec, an
ordered sequence of entries with a fixed capacity and two authorities. -/
structure AssetsList where
  capacity : Nat
  exchangeAuthority : Nat
  assetsAdmin : Nat
  assets : List Asset
deriving DecidableEq, Repr

/-- Modelled from the spec: the error kinds of section 7 of the spec. -/
inductive ManagerError where
  | notInitialized
  | alreadyInitialized
  | assetNotFound
  | supplyExceedsMax
  | listCapacityExceeded
  | unauthorizedSigner
  | feedMismatch
deriving DecidableEq, Repr

/-- Modelled from the spec: an external price feed account (glossary: a feed
provides a periodically updated price and timestamp). -/
structure Feed where
  address : Nat
  price : Nat
  timestamp : Nat
deriving DecidableEq, Repr

/-- Decidable equality of results, so that concrete runs of the operations
can be settled by evaluation. -/
instance {ε α : Type} [DecidableEq ε] [DecidableEq α] : DecidableEq (Except ε α)
  | .error e, .error f =>
    if h : e = f then isTrue (congrArg Except.error h)
    else isFalse (fun c => h (Except.error.inj c))
  | .error _, .ok _ => isFalse Except.noConfusion
  | .ok _, .error _ => isFalse Except.noConfusion
  | .ok a, .ok b =>
    if h : a = b then isTrue (congrArg Except.ok h)
    else isFalse (fun c => h (Except.ok.inj c))

/-- Matches an entry against a target asset address. -/
def addrMatch (addr : Nat) : Asset → Bool := fun b => b.assetAddress == addr

/-- Finds the first entry whose asset address matches. -/
def findAsset (assets : List Asset) (addr : Nat) : Option Asset :=
  assets.find? (addrMatch addr)

/-- Overwrites the supply field of an entry. -/
def withSupply (v : Nat) : Asset → Asset := fun b => { b with supply := v }

/-- Overwrites the maxSupply field of an entry. -/
def withMaxSupply (m : Nat) : Asset → Asset := fun b => { b with maxSupply := m }

/-- Updates the first element satisfying the predicate, leaving the rest of
the list unchanged. -/
def updateFirst (p : Asset → Bool) (f : Asset → Asset) : List Asset → List Asset
  | [] => []
  | a :: t => if p a then f a :: t else a :: updateFirst p f t

/-- Modelled from the spec: createAssetsList(capacity) of section 4.1
allocates an empty list sized for capacity entries. -/
def createAssetsList (capacity : Nat) : AssetsList :=
  { capacity := capacity
    exchangeAuthority := DEFAULT_PUBLIC_KEY
    assetsAdmin := DEFAULT_PUBLIC_KEY
    assets := [] }

/-- Modelled from the spec: initializeAssetsList of section 4.1 populates the
first two slots (base unit, then collateral) and sets the authorities; it
fails if the list is already populated. The field values of the two initial
entries are the ones the Initialize test asserts: both have maxSupply equal
to MAX_U64 and supply 0; the base-unit (USD) entry sits at index 0 with no
feed and price USDT_VALUE_U64; the collateral entry sits at index 1 with the
given feed and price 0. -/
def initializeAssetsList (l : AssetsList) (collateralToken collateralTokenFeed
    assetsAdmin exchangeAuthority usdToken tokenDecimals : Nat) :
    Except ManagerError AssetsList :=
  if l.assets ≠ [] then .error .alreadyInitialized
  else
    let usdAsset : Asset :=
      { assetAddress := usdToken, feedAddress := DEFAULT_PUBLIC_KEY,
        decimals := tokenDecimals, maxSupply := MAX_U64, supply := 0,
        price := USDT_VALUE_U64, lastUpdate := 0 }
    let collateralAsset : Asset :=
      { assetAddress := collateralToken, feedAddress := collateralTokenFeed,
        decimals := tokenDecimals, maxSupply := MAX_U64, supply := 0,
        price := 0, lastUpdate := 0 }
    .ok { l with
      exchangeAuthority := exchangeAuthority
      assetsAdmin := assetsAdmin
      assets := [usdAsset, collateralAsset] }

/-- Modelled from the spec: addNewAsset of section 4.1 appends an entry with
supply 0 and price 0; it fails with a capacity error when the list is full
and requires the caller to be the assetsAdmin. -/
def addNewAsset (l : AssetsList) (signer tokenAddress tokenFeed tokenDecimals
    maxSupply : Nat) : Except ManagerError AssetsList :=
  if l.capacity ≤ l.assets.length then .error .listCapacityExceeded
  else if signer ≠ l.assetsAdmin then .error .unauthorizedSigner
  else
    let newAsset : Asset :=
      { assetAddress := tokenAddress, feedAddress := tokenFeed,
        decimals := tokenDecimals, maxSupply := maxSupply, supply := 0,
        price := 0, lastUpdate := 0 }
    .ok { l with assets := l.assets ++ [newAsset] }

/-- Modelled from the spec: setAssetSupply of section 4.1 requires the caller
to be the exchangeAuthority and a matching entry found by address; it fails
with a not-found error if the address is absent, fails with an over-limit
error if newSupply exceeds the entry maxSupply, and otherwise overwrites the
supply of the matching entry. -/
def setAssetSupply (l : AssetsList) (signer assetAddress newSupply : Nat) :
    Except ManagerError AssetsList :=
  if signer ≠ l.exchangeAuthority then .error .unauthorizedSigner
  else match findAsset l.assets assetAddress with
    | none => .error .assetNotFound
    | some a =>
      if a.maxSupply < newSupply then .error .supplyExceedsMax
      else .ok { l with assets := updateFirst (addrMatch assetAddress) (withSupply newSupply) l.assets }

/-- Modelled from the spec: setAssetMaxSupply of section 4.1 requires the
caller to be the assetsAdmin and a matching entry; it fails with a not-found
error otherwise and sets maxSupply without supply re-validation. -/
def setAssetMaxSupply (l : AssetsList) (signer assetAddress newMaxSupply : Nat) :
    Except ManagerError AssetsList :=
  if signer ≠ l.assetsAdmin then .error .unauthorizedSigner
  else match findAsset l.assets assetAddress with
    | none => .error .assetNotFound
    | some _ => .ok { l with assets := updateFirst (addrMatch assetAddress) (withMaxSupply newMaxSupply) l.assets }

/-- Finds the feed with the given address in a feed set. -/
def findFeed (feeds : List Feed) (addr : Nat) : Option Feed :=
  feeds.find? (fun f => f.address == addr)

/-- Refreshes one entry from the feed set: an entry with an empty feed
address is untouched, otherwise the price and lastUpdate are taken from the
matching feed. -/
def refreshAsset (feeds : List Feed) (a : Asset) : Asset :=
  if a.feedAddress == DEFAULT_PUBLIC_KEY then a
  else match findFeed feeds a.feedAddress with
    | some f => { a with price := f.price, lastUpdate := f.timestamp }
    | none => a

/-- Modelled from the spec: updatePrices of section 4.1. For every entry with
a non-empty feed address the price and timestamp of the matching feed are
written into the entry; a feed set containing an unmatched or invalid feed
address, or missing the feed of some entry, makes the whole batch fail
atomically with no partial application. -/
def updatePrices (l : AssetsList) (feeds : List Feed) :
    Except ManagerError AssetsList :=
  if feeds.all (fun f => l.assets.any (fun a => a.feedAddress == f.address)) &&
     l.assets.all (fun a =>
       a.feedAddress == DEFAULT_PUBLIC_KEY || (findFeed feeds a.feedAddress).isSome)
  then .ok { l with assets := l.assets.map (refreshAsset feeds) }
  else .error .feedMismatch

/-- One client-visible mutation of an AssetsList. -/
inductive Op where
  | addNewAsset (signer tokenAddress tokenFeed tokenDecimals maxSupply : Nat)
  | setAssetSupply (signer assetAddress newSupply : Nat)
  | setAssetMaxSupply (signer assetAddress newMaxSupply : Nat)
  | updatePrices (feeds : List Feed)
deriving DecidableEq, Repr

/-- Runs one operation on a list, returning the error or the new list. -/
def runOp (l : AssetsList) : Op → Except ManagerError AssetsList
  | .addNewAsset s ta tf td ms => addNewAsset l s ta tf td ms
  | .setAssetSupply s a v => setAssetSupply l s a v
  | .setAssetMaxSupply s a v => setAssetMaxSupply l s a v
  | .updatePrices feeds => updatePrices l feeds

/-- A failed operation leaves the on-chain account unchanged (atomic
failure); a successful one commits the new list. -/
def step (l : AssetsList) (op : Op) : AssetsList :=
  match runOp l op with
  | .ok l2 => l2
  | .error _ => l

/-- Runs a sequence of operations, each committing only on success. -/
def runOps (l : AssetsList) (ops : List Op) : AssetsList :=
  ops.foldl step l

/-- An account item of an IDL instruction, from src/sdk/src/idl/pyth.ts. -/
structure IdlAccount where
  name : String
  isMut : Bool
  isSigner : Bool
deriving DecidableEq, Repr

/-- A typed argument of an IDL instruction; ty mirrors the "type" key of the
source JSON. -/
structure IdlField where
  name : String
  ty : String
deriving DecidableEq, Repr

/-- An instruction entry of the IDL, from src/sdk/src/idl/pyth.ts. -/
structure IdlInstruction where
  name : String
  accounts : List IdlAccount
  args : List IdlField
deriving DecidableEq, Repr

/-- A type entry of the IDL; kind mirrors the "kind" key and variants the
names of the enum variants, from src/sdk/src/idl/pyth.ts. -/
structure IdlTypeDef where
  name : String
  kind : String
  variants : List String
deriving DecidableEq, Repr

/-- The whole IDL document, from src/sdk/src/idl/pyth.ts. -/
structure Idl where
  version : String
  name : String
  instructions : List IdlInstruction
  types : List IdlTypeDef
deriving DecidableEq, Repr

/-- The Pyth oracle IDL constant of src/sdk/src/idl/pyth.ts, embedded
verbatim (both the TypeScript type Pyth and the const IDL spell out the same
document; this is that document). -/
def pythIdl : Idl :=
  { version := "0.0.0",
    name := "pyth",
    instructions := [
      { name := "initialize",
        accounts := [⟨"price", true, false⟩],
        args := [⟨"price", "i64"⟩, ⟨"expo", "i32"⟩, ⟨"conf", "u64"⟩] },
      { name := "setPrice",
        accounts := [⟨"price", true, false⟩],
        args := [⟨"price", "i64"⟩] },
      { name := "setTrading",
        accounts := [⟨"price", true, false⟩],
        args := [⟨"status", "u8"⟩] },
      { name := "setTwap",
        accounts := [⟨"price", true, false⟩],
        args := [⟨"value", "u64"⟩] },
      { name := "setConfidence",
        accounts := [⟨"price", true, false⟩],
        args := [⟨"value", "u64"⟩] }],
    types := [
      ⟨"PriceStatus", "enum", ["Unknown", "Trading", "Halted", "Auction"]⟩,
      ⟨"CorpAction", "enum", ["NoCorpAct"]⟩,
      ⟨"PriceType", "enum", ["Unknown", "Price", "TWAP", "Volatility"]⟩] }

/-- The entry invariant of section 3 of the spec: supply never exceeds
maxSupply. -/
def supplyInv (l : AssetsList) : Prop :=
  ∀ a ∈ l.assets, a.supply ≤ a.maxSupply

/-- The list invariant of section 3 of the spec: length never exceeds the
fixed capacity. -/
def lengthInv (l : AssetsList) : Prop :=
  l.assets.length ≤ l.capacity

instance (l : AssetsList) : Decidable (supplyInv l) :=
  List.decidableBAll (fun (a : Asset) => a.supply ≤ a.maxSupply) l.assets

instance (l : AssetsList) : Decidable (lengthInv l) :=
  Nat.decLe l.assets.length l.capacity

/-! Concrete fixture mirroring the reference scenario of the test suite: a
capacity-4 list, collateral token 2 with feed 3, assetsAdmin 100,
exchangeAuthority 200, usd token 1, token decimals 6. -/

/-- Result of initializing the reference capacity-4 list. -/
def sampleInit : Except ManagerError AssetsList :=
  initializeAssetsList (createAssetsList 4) 2 3 100 200 1 6

/-- The initialized reference list (two entries). -/
def sampleList : AssetsList := sampleInit.toOption.getD (createAssetsList 0)

/-- The reference list after adding asset 4 (feed 5, decimals 6, maxSupply
30000). -/
def sampleList3 : AssetsList :=
  (addNewAsset sampleList 100 4 5 6 30000).toOption.getD (createAssetsList 0)

/-- The reference list grown to its full capacity of 4 entries. -/
def fullList : AssetsList :=
  runOps sampleList [Op.addNewAsset 100 4 5 6 30000, Op.addNewAsset 100 7 8 6 30000]

/-- The reference list after a successful price refresh from the feed set
holding feed 3 at price 60000 and timestamp 7. -/
def sampleRefreshed : AssetsList :=
  (updatePrices sampleList [⟨3, 60000, 7⟩]).toOption.getD (createAssetsList 0)

/-! Helper lemmas about the list-surgery primitives. -/

theorem length_updateFirst (p : Asset → Bool) (f : Asset → Asset) :
    ∀ l : List Asset, (updateFirst p f l).length = l.length
  | [] => rfl
  | a :: t => by
    by_cases h : p a = true
    · simp [updateFirst, h]
    · simp [updateFirst, h, length_updateFirst p f t]

theorem mem_updateFirst {p : Asset → Bool} {f : Asset → Asset} :
    ∀ {l : List Asset} {b : Asset}, b ∈ updateFirst p f l →
      b ∈ l ∨ ∃ a, l.find? p = some a ∧ b = f a
  | [], b, hb => absurd hb (by simp [updateFirst])
  | a :: t, b, hb => by
    by_cases h : p a = true
    · rw [updateFirst, if_pos h] at hb
      rcases List.mem_cons.mp hb with hb | hb
      · exact Or.inr ⟨a, by simp [List.find?, h], hb⟩
      · exact Or.inl (List.mem_cons_of_mem a hb)
    · rw [updateFirst, if_neg h] at hb
      rcases List.mem_cons.mp hb with hb | hb
      · exact Or.inl (hb ▸ List.mem_cons_self a t)
      · rcases mem_updateFirst hb with hb | ⟨c, hc, hbc⟩
        · exact Or.inl (List.mem_cons_of_mem a hb)
        · refine Or.inr ⟨c, ?_, hbc⟩
          simpa [List.find?, Bool.of_not_eq_true h] using hc

theorem getElem?_updateFirst_of_not (p : Asset → Bool) (f : Asset → Asset) :
    ∀ (l : List Asset) (i : Nat) (a : Asset),
      l[i]? = some a → p a = false → (updateFirst p f l)[i]? = some a
  | [], i, a, hget, _ => by simp at hget
  | c :: t, 0, a, hget, hpa => by
    simp at hget
    subst hget
    rw [updateFirst, if_neg (by simp [hpa])]
    simp
  | c :: t, i + 1, a, hget, hpa => by
    simp at hget
    by_cases h : p c = true
    · rw [updateFirst, if_pos h]
      simpa using hget
    · rw [updateFirst, if_neg h]
      simpa using getElem?_updateFirst_of_not p f t i a hget hpa

theorem findAsset_updateFirst (f : Asset → Asset)
    (hf : ∀ b, (f b).assetAddress = b.assetAddress) (addr : Nat) :
    ∀ (assets : List Asset) (a : Asset),
      findAsset assets addr = some a →
      findAsset (updateFirst (addrMatch addr) f assets) addr = some (f a)
  | [], a, hfind => by simp [findAsset] at hfind
  | c :: t, a, hfind => by
    by_cases h : addrMatch addr c = true
    · rw [findAsset, List.find?, h] at hfind
      simp at hfind
      subst hfind
      rw [updateFirst, if_pos h, findAsset, List.find?]
      have h2 : addrMatch addr (f c) = true := by
        simpa [addrMatch, hf c] using h
      rw [h2]
    · rw [findAsset, List.find?, Bool.of_not_eq_true h] at hfind
      rw [updateFirst, if_neg h, findAsset, List.find?, Bool.of_not_eq_true h]
      exact findAsset_updateFirst f hf addr t a hfind

theorem refreshAsset_supply (feeds : List Feed) (a : Asset) :
    (refreshAsset feeds a).supply = a.supply ∧
    (refreshAsset feeds a).maxSupply = a.maxSupply := by
  rw [refreshAsset]
  by_cases h : (a.feedAddress == DEFAULT_PUBLIC_KEY) = true
  · rw [if_pos h]; exact ⟨rfl, rfl⟩
  · rw [if_neg h]
    cases findFeed feeds a.feedAddress with
    | none => exact ⟨rfl, rfl⟩
    | some f => exact ⟨rfl, rfl⟩

/-! Inversion lemmas: what a successful operation tells us. -/

theorem addNewAsset_ok {l : AssetsList} {s ta tf td ms : Nat} {l2 : AssetsList}
    (h : addNewAsset l s ta tf td ms = .ok l2) :
    l.assets.length < l.capacity ∧ s = l.assetsAdmin ∧
    l2 = { l with assets := l.assets ++ [⟨ta, tf, td, ms, 0, 0, 0⟩] } := by
  rw [addNewAsset] at h
  split at h
  · exact Except.noConfusion h
  · split at h
    · exact Except.noConfusion h
    · next h1 h2 =>
      exact ⟨Nat.lt_of_not_le h1, Classical.not_not.mp h2,
        (Except.ok.inj h).symm⟩

theorem setAssetSupply_ok {l : AssetsList} {s addr v : Nat} {l2 : AssetsList}
    (h : setAssetSupply l s addr v = .ok l2) :
    s = l.exchangeAuthority ∧ ∃ a, findAsset l.assets addr = some a ∧
      v ≤ a.maxSupply ∧
      l2 = { l with assets := updateFirst (addrMatch addr) (withSupply v) l.assets } := by
  rw [setAssetSupply] at h
  split at h
  · exact Except.noConfusion h
  · next h1 =>
    split at h
    · exact Except.noConfusion h
    · next a hfind =>
      split at h
      · exact Except.noConfusion h
      · next h2 =>
        exact ⟨Classical.not_not.mp h1,
          a, hfind, Nat.le_of_not_lt h2, (Except.ok.inj h).symm⟩

theorem setAssetMaxSupply_ok {l : AssetsList} {s addr v : Nat} {l2 : AssetsList}
    (h : setAssetMaxSupply l s addr v = .ok l2) :
    s = l.assetsAdmin ∧ ∃ a, findAsset l.assets addr = some a ∧
      l2 = { l with assets := updateFirst (addrMatch addr) (withMaxSupply v) l.assets } := by
  rw [setAssetMaxSupply] at h
  split at h
  · exact Except.noConfusion h
  · next h1 =>
    split at h
    · exact Except.noConfusion h
    · next a hfind =>
      exact ⟨Classical.not_not.mp h1, a, hfind, (Except.ok.inj h).symm⟩

theorem updatePrices_ok {l : AssetsList} {feeds : List Feed} {l2 : AssetsList}
    (h : updatePrices l feeds = .ok l2) :
    (feeds.all fun f => l.assets.any fun a => a.feedAddress == f.address) = true ∧
    (l.assets.all fun a => a.feedAddress == DEFAULT_PUBLIC_KEY ||
      (findFeed feeds a.feedAddress).isSome) = true ∧
    l2 = { l with assets := l.assets.map (refreshAsset feeds) } := by
  rw [updatePrices] at h
  split at h
  · next hc =>
    rcases Bool.and_eq_true_iff.mp hc with ⟨hA, hB⟩
    exact ⟨hA, hB, (Except.ok.inj h).symm⟩
  · exact Except.noConfusion h

/-! Invariant preservation across committed operations. -/

theorem capacity_step (l : AssetsList) (op : Op) :
    (step l op).capacity = l.capacity := by
  rw [step]
  cases hrun : runOp l op with
  | error e => rfl
  | ok l2 =>
    cases op with
    | addNewAsset s ta tf td ms =>
      rw [(addNewAsset_ok hrun).2.2]
    | setAssetSupply s a v =>
      obtain ⟨-, -, -, -, h⟩ := setAssetSupply_ok hrun
      rw [h]
    | setAssetMaxSupply s a v =>
      obtain ⟨-, -, -, h⟩ := setAssetMaxSupply_ok hrun
      rw [h]
    | updatePrices feeds =>
      rw [(updatePrices_ok hrun).2.2]

theorem lengthInv_step (l : AssetsList) (op : Op) (h : lengthInv l) :
    lengthInv (step l op) := by
  rw [lengthInv, capacity_step, step]
  cases hrun : runOp l op with
  | error e => exact h
  | ok l2 =>
    cases op with
    | addNewAsset s ta tf td ms =>
      obtain ⟨hlt, -, hl2⟩ := addNewAsset_ok hrun
      rw [hl2]
      simpa using hlt
    | setAssetSupply s a v =>
      obtain ⟨-, -, -, -, hl2⟩ := setAssetSupply_ok hrun
      rw [hl2]
      simpa [length_updateFirst] using h
    | setAssetMaxSupply s a v =>
      obtain ⟨-, -, -, hl2⟩ := setAssetMaxSupply_ok hrun
      rw [hl2]
      simpa [length_updateFirst] using h
    | updatePrices feeds =>
      rw [(updatePrices_ok hrun).2.2]
      simpa using h

theorem lengthInv_runOps (l : AssetsList) (ops : List Op) (h : lengthInv l) :
    lengthInv (runOps l ops) := by
  induction ops generalizing l with
  | nil => exact h
  | cons op ops ih => exact ih (step l op) (lengthInv_step l op h)

theorem supplyInv_step (l : AssetsList) (op : Op) (h : supplyInv l)
    (hop : ∀ s x m, op ≠ Op.setAssetMaxSupply s x m) :
    supplyInv (step l op) := by
  rw [step]
  cases hrun : runOp l op with
  | error e => exact h
  | ok l2 =>
    cases op with
    | addNewAsset s ta tf td ms =>
      obtain ⟨-, -, hl2⟩ := addNewAsset_ok hrun
      rw [hl2]
      intro b hb
      rcases List.mem_append.mp hb with hb | hb
      · exact h b hb
      · rcases List.mem_singleton.mp hb with rfl
        exact Nat.zero_le _
    | setAssetSupply s a v =>
      obtain ⟨-, c, hfind, hle, hl2⟩ := setAssetSupply_ok hrun
      rw [hl2]
      intro b hb
      rcases mem_updateFirst hb with hb | ⟨d, hd, rfl⟩
      · exact h b hb
      · have : d = c := by
          rw [findAsset] at hfind
          rw [hd] at hfind
          exact (Option.some.inj hfind)
        rw [this]
        exact hle
    | setAssetMaxSupply s x m => exact absurd rfl (hop s x m)
    | updatePrices feeds =>
      rw [(updatePrices_ok hrun).2.2]
      intro b hb
      rcases List.mem_map.mp hb with ⟨c, hc, rfl⟩
      rw [(refreshAsset_supply feeds c).1, (refreshAsset_supply feeds c).2]
      exact h c hc

theorem step_eq_of_error (l : AssetsList) (op : Op) (e : ManagerError)
    (h : runOp l op = .error e) : step l op = l := by
  rw [step, h]

/-- C1 (amended): a setAssetSupply call with newSupply above the matching
entry maxSupply always fails (with the over-limit error when the signer is
the exchangeAuthority) and leaves the list unchanged, and every operation
other than setAssetMaxSupply preserves the invariant that supply is at most
maxSupply for every entry. -/
theorem setAssetSupply_over_max_fails (l : AssetsList) (signer addr v : Nat)
    (a : Asset) (l2 : AssetsList) (op : Op)
    (hfind : findAsset l.assets addr = some a) (hover : a.maxSupply < v)
    (hinv : supplyInv l2)
    (hop : ∀ s x m, op ≠ Op.setAssetMaxSupply s x m) :
    (∃ e, setAssetSupply l signer addr v = .error e) ∧
    (signer = l.exchangeAuthority →
      setAssetSupply l signer addr v = .error .supplyExceedsMax) ∧
    step l (Op.setAssetSupply signer addr v) = l ∧
    supplyInv (step l2 op) := by
  have himp : signer = l.exchangeAuthority →
      setAssetSupply l signer addr v = .error .supplyExceedsMax := by
    intro hs
    rw [setAssetSupply, if_neg (not_not_intro hs)]
    simp [hfind, hover]
  have hfail : ∃ e, setAssetSupply l signer addr v = .error e := by
    by_cases hs : signer = l.exchangeAuthority
    · exact ⟨.supplyExceedsMax, himp hs⟩
    · exact ⟨.unauthorizedSigner, by rw [setAssetSupply, if_pos hs]⟩
  obtain ⟨e, he⟩ := hfail
  exact ⟨⟨e, he⟩, himp,
    step_eq_of_error l (Op.setAssetSupply signer addr v) e he,
    supplyInv_step l2 op hinv hop⟩

/-- C1 witness: concrete instance of the amended theorem, on the reference
list after adding asset 4 with maxSupply 30000. -/
theorem setAssetSupply_over_max_fails_witness :
    setAssetSupply sampleList3 200 4 30001 = .error .supplyExceedsMax ∧
    step sampleList3 (Op.setAssetSupply 200 4 30001) = sampleList3 := by
  have h := setAssetSupply_over_max_fails sampleList3 200 4 30001
    ⟨4, 5, 6, 30000, 0, 0, 0⟩ sampleList (Op.setAssetSupply 200 1 5)
    (by decide) (by decide) (by decide)
    (fun s x m hc => Op.noConfusion hc)
  exact ⟨h.2.1 (by decide), h.2.2.1⟩

/-- C1 counterexample: the claim that supply is at most maxSupply for every
entry at all times is false, because setAssetMaxSupply may lower maxSupply
below an existing supply; after setting the supply of asset 1 to 10 and then
its maxSupply to 5, the invariant is violated. -/
theorem supply_le_maxSupply_not_preserved :
    ¬ supplyInv (runOps sampleList
      [Op.setAssetSupply 200 1 10, Op.setAssetMaxSupply 100 1 5]) := by
  decide

/-- C2: a feed set containing a feed address matching no entry makes
updatePrices fail with the feed-mismatch error, and the committed state is
unchanged: no price is partially applied. -/
theorem updatePrices_unmatched_feed_atomic (l : AssetsList) (feeds : List Feed)
    (f : Feed) (hf : f ∈ feeds)
    (hun : ∀ a ∈ l.assets, a.feedAddress ≠ f.address) :
    updatePrices l feeds = .error .feedMismatch ∧
    step l (Op.updatePrices feeds) = l := by
  have hA : (feeds.all fun fd => l.assets.any fun a =>
      a.feedAddress == fd.address) = false := by
    refine List.all_eq_false.mpr ⟨f, hf, ?_⟩
    intro hany
    rcases List.any_eq_true.mp hany with ⟨a, ha, hba⟩
    exact hun a ha (by simpa using hba)
  have h1 : updatePrices l feeds = .error .feedMismatch := by
    rw [updatePrices, hA]
    simp
  exact ⟨h1, step_eq_of_error l (Op.updatePrices feeds) .feedMismatch h1⟩

/-- C2 witness: on the initialized reference list, a feed set holding one
feed with the unknown address 99 is rejected wholesale. -/
theorem updatePrices_unmatched_feed_atomic_witness :
    updatePrices sampleList [⟨99, 1, 7⟩] = .error .feedMismatch ∧
    step sampleList (Op.updatePrices [⟨99, 1, 7⟩]) = sampleList := by
  exact updatePrices_unmatched_feed_atomic sampleList [⟨99, 1, 7⟩]
    ⟨99, 1, 7⟩ (by decide) (by decide)

/-- C3: adding to a list whose length has reached its capacity fails with
the capacity error and leaves the list unchanged, and the length of a list
never exceeds its capacity along any sequence of operations. -/
theorem capacity_never_exceeded (l : AssetsList) (s ta tf td ms : Nat)
    (l2 : AssetsList) (ops : List Op)
    (hfull : l.assets.length = l.capacity) (hlen : lengthInv l2) :
    addNewAsset l s ta tf td ms = .error .listCapacityExceeded ∧
    step l (Op.addNewAsset s ta tf td ms) = l ∧
    lengthInv (runOps l2 ops) := by
  have h1 : addNewAsset l s ta tf td ms = .error .listCapacityExceeded := by
    rw [addNewAsset, if_pos (Nat.le_of_eq hfull.symm)]
  exact ⟨h1, step_eq_of_error l (Op.addNewAsset s ta tf td ms)
    .listCapacityExceeded h1, lengthInv_runOps l2 ops hlen⟩

/-- C3 witness: the reference list grown to its capacity of 4 rejects a
fifth asset, and a sample run keeps length within capacity. -/
theorem capacity_never_exceeded_witness :
    addNewAsset fullList 100 9 10 6 1 = .error .listCapacityExceeded ∧
    step fullList (Op.addNewAsset 100 9 10 6 1) = fullList ∧
    lengthInv (runOps sampleList [Op.addNewAsset 100 4 5 6 30000]) := by
  have h := capacity_never_exceeded fullList 100 9 10 6 1 sampleList
    [Op.addNewAsset 100 4 5 6 30000] (by decide) (by decide)
  exact h

/-- C4: an addNewAsset call by the assetsAdmin on a non-full list succeeds,
appending exactly one entry carrying the given token address, feed, decimals
and maxSupply, with supply 0 and price 0. -/
theorem addNewAsset_appends (l : AssetsList) (s ta tf td ms : Nat)
    (hs : s = l.assetsAdmin) (hlen : l.assets.length < l.capacity) :
    addNewAsset l s ta tf td ms = .ok { l with assets := l.assets ++ [⟨ta, tf, td, ms, 0, 0, 0⟩] } ∧
    (l.assets ++ [(⟨ta, tf, td, ms, 0, 0, 0⟩ : Asset)]).length = l.assets.length + 1 ∧
    (l.assets ++ [(⟨ta, tf, td, ms, 0, 0, 0⟩ : Asset)])[l.assets.length]? = some ⟨ta, tf, td, ms, 0, 0, 0⟩ := by
  refine ⟨?_, by simp, List.getElem?_concat_length l.assets _⟩
  rw [addNewAsset, if_neg (Nat.not_le.mpr hlen), if_neg (not_not_intro hs)]

/-- C4 witness: asset 4 with feed 5, decimals 6, maxSupply 30000 is appended
to the initialized reference list as its third entry. -/
theorem addNewAsset_appends_witness :
    addNewAsset sampleList 100 4 5 6 30000 = .ok { sampleList with assets := sampleList.assets ++ [⟨4, 5, 6, 30000, 0, 0, 0⟩] } ∧
    (sampleList.assets ++ [(⟨4, 5, 6, 30000, 0, 0, 0⟩ : Asset)]).length = sampleList.assets.length + 1 := by
  have h := addNewAsset_appends sampleList 100 4 5 6 30000 (by decide) (by decide)
  exact ⟨h.1, h.2.1⟩

/-- C5: a setAssetSupply call by the exchangeAuthority, on an address whose
entry exists and with newSupply within maxSupply, succeeds; afterwards the
matching entry carries exactly newSupply as its supply (its other fields
untouched) and every entry with a different address is unchanged. -/
theorem setAssetSupply_overwrites (l : AssetsList) (s addr v : Nat) (a : Asset)
    (hs : s = l.exchangeAuthority)
    (hfind : findAsset l.assets addr = some a) (hle : v ≤ a.maxSupply) :
    setAssetSupply l s addr v = .ok { l with assets := updateFirst (addrMatch addr) (withSupply v) l.assets } ∧
    findAsset (updateFirst (addrMatch addr) (withSupply v) l.assets) addr = some { a with supply := v } ∧
    (updateFirst (addrMatch addr) (withSupply v) l.assets).length = l.assets.length ∧
    (∀ (i : Nat) (b : Asset), l.assets[i]? = some b → b.assetAddress ≠ addr →
      (updateFirst (addrMatch addr) (withSupply v) l.assets)[i]? = some b) := by
  refine ⟨?_, ?_, length_updateFirst _ _ _, ?_⟩
  · rw [setAssetSupply, if_neg (not_not_intro hs)]
    simp [hfind, Nat.not_lt.mpr hle]
  · exact findAsset_updateFirst (withSupply v) (fun b => rfl) addr l.assets a hfind
  · intro i b hget hb
    exact getElem?_updateFirst_of_not _ _ l.assets i b hget (by simp [addrMatch, hb])

/-- C5 witness: on the initialized reference list, the exchangeAuthority
sets the supply of asset 1 (the base-unit entry) to 12345678. -/
theorem setAssetSupply_overwrites_witness :
    setAssetSupply sampleList 200 1 12345678 = .ok { sampleList with assets := updateFirst (addrMatch 1) (withSupply 12345678) sampleList.assets } ∧
    findAsset (updateFirst (addrMatch 1) (withSupply 12345678) sampleList.assets) 1 = some ⟨1, 0, 6, 2 ^ 64 - 1, 12345678, 10000, 0⟩ := by
  have h := setAssetSupply_overwrites sampleList 200 1 12345678
    ⟨1, 0, 6, 2 ^ 64 - 1, 0, 10000, 0⟩ (by decide) (by decide) (by decide)
  exact ⟨h.1, h.2.1⟩

/-- C6: a setAssetSupply or setAssetMaxSupply call with a non-authorized
signer or an absent asset address fails — with the not-found error in the
absent-address case — and the committed list, every entry included, is
unchanged. -/
theorem unauthorized_or_absent_fails (l : AssetsList) (s1 a1 v1 s2 a2 v2 : Nat)
    (h1 : s1 ≠ l.exchangeAuthority ∨ findAsset l.assets a1 = none)
    (h2 : s2 ≠ l.assetsAdmin ∨ findAsset l.assets a2 = none) :
    (∃ e, setAssetSupply l s1 a1 v1 = .error e) ∧
    (s1 = l.exchangeAuthority → setAssetSupply l s1 a1 v1 = .error .assetNotFound) ∧
    step l (Op.setAssetSupply s1 a1 v1) = l ∧
    (∃ e, setAssetMaxSupply l s2 a2 v2 = .error e) ∧
    (s2 = l.assetsAdmin → setAssetMaxSupply l s2 a2 v2 = .error .assetNotFound) ∧
    step l (Op.setAssetMaxSupply s2 a2 v2) = l := by
  have hsup : ∃ e, setAssetSupply l s1 a1 v1 = .error e := by
    by_cases hs : s1 = l.exchangeAuthority
    · have hfind : findAsset l.assets a1 = none := h1.resolve_left (not_not_intro hs)
      refine ⟨.assetNotFound, ?_⟩
      rw [setAssetSupply, if_neg (not_not_intro hs)]
      simp [hfind]
    · exact ⟨.unauthorizedSigner, by rw [setAssetSupply, if_pos hs]⟩
  have hsupimp : s1 = l.exchangeAuthority →
      setAssetSupply l s1 a1 v1 = .error .assetNotFound := by
    intro hs
    have hfind : findAsset l.assets a1 = none := h1.resolve_left (not_not_intro hs)
    rw [setAssetSupply, if_neg (not_not_intro hs)]
    simp [hfind]
  have hmax : ∃ e, setAssetMaxSupply l s2 a2 v2 = .error e := by
    by_cases hs : s2 = l.assetsAdmin
    · have hfind : findAsset l.assets a2 = none := h2.resolve_left (not_not_intro hs)
      refine ⟨.assetNotFound, ?_⟩
      rw [setAssetMaxSupply, if_neg (not_not_intro hs)]
      simp [hfind]
    · exact ⟨.unauthorizedSigner, by rw [setAssetMaxSupply, if_pos hs]⟩
  have hmaximp : s2 = l.assetsAdmin →
      setAssetMaxSupply l s2 a2 v2 = .error .assetNotFound := by
    intro hs
    have hfind : findAsset l.assets a2 = none := h2.resolve_left (not_not_intro hs)
    rw [setAssetMaxSupply, if_neg (not_not_intro hs)]
    simp [hfind]
  obtain ⟨e1, he1⟩ := hsup
  obtain ⟨e2, he2⟩ := hmax
  exact ⟨⟨e1, he1⟩, hsupimp,
    step_eq_of_error l (Op.setAssetSupply s1 a1 v1) e1 he1,
    ⟨e2, he2⟩, hmaximp,
    step_eq_of_error l (Op.setAssetMaxSupply s2 a2 v2) e2 he2⟩

/-- C6 witness: on the reference list, the authorized signers target absent
addresses 77 and 88; both calls fail with the not-found error and commit
nothing. -/
theorem unauthorized_or_absent_fails_witness :
    setAssetSupply sampleList 200 77 5 = .error .assetNotFound ∧
    setAssetMaxSupply sampleList 100 88 5 = .error .assetNotFound ∧
    step sampleList (Op.setAssetSupply 200 77 5) = sampleList ∧
    step sampleList (Op.setAssetMaxSupply 100 88 5) = sampleList := by
  have h := unauthorized_or_absent_fails sampleList 200 77 5 100 88 5
    (Or.inr (by decide)) (Or.inr (by decide))
  exact ⟨h.2.1 (by decide), h.2.2.2.2.1 (by decide), h.2.2.1, h.2.2.2.2.2⟩

/-- C7: a successful updatePrices call leaves the length unchanged and, for
every entry: an entry with an empty feed address is untouched; an entry with
a non-empty feed address gets exactly the price and timestamp of its feed;
and, whenever the provided feeds are fresher than the stored timestamps (the
clock of the ledger never runs backwards), every entry has a non-decreasing
lastUpdate, strictly increasing for the refreshed ones. -/
theorem updatePrices_success_refreshes (l : AssetsList) (feeds : List Feed)
    (l2 : AssetsList) (hok : updatePrices l feeds = .ok l2)
    (hfresh : ∀ a ∈ l.assets, ∀ f ∈ feeds, a.feedAddress = f.address →
      a.lastUpdate < f.timestamp) :
    l2.assets.length = l.assets.length ∧
    ∀ (i : Nat) (a : Asset), l.assets[i]? = some a →
      ((a.feedAddress = DEFAULT_PUBLIC_KEY → l2.assets[i]? = some a) ∧
       (a.feedAddress ≠ DEFAULT_PUBLIC_KEY → ∃ f, findFeed feeds a.feedAddress = some f ∧
          f ∈ feeds ∧ f.address = a.feedAddress ∧
          l2.assets[i]? = some { a with price := f.price, lastUpdate := f.timestamp } ∧
          a.lastUpdate < f.timestamp) ∧
       (∀ (b : Asset), l2.assets[i]? = some b → a.lastUpdate ≤ b.lastUpdate)) := by
  obtain ⟨hA, hB, hl2⟩ := updatePrices_ok hok
  subst hl2
  refine ⟨by simp, ?_⟩
  intro i a hget
  have hmem : a ∈ l.assets := List.getElem?_mem hget
  have hget2 : ({ l with assets := l.assets.map (refreshAsset feeds) } : AssetsList).assets[i]? = some (refreshAsset feeds a) := by
    show (l.assets.map (refreshAsset feeds))[i]? = _
    rw [List.getElem?_map, hget]
    rfl
  by_cases hfa : a.feedAddress = DEFAULT_PUBLIC_KEY
  · have hra : refreshAsset feeds a = a := by
      rw [refreshAsset, if_pos (by simp [hfa])]
    rw [hra] at hget2
    refine ⟨fun _ => hget2, fun hc => absurd hfa hc, ?_⟩
    intro b hb
    rw [hget2] at hb
    rw [Option.some.inj hb]
  · have hall := List.all_eq_true.mp hB a hmem
    have hsome : (findFeed feeds a.feedAddress).isSome = true := by
      rcases Bool.or_eq_true_iff.mp hall with hc | hc
      · exact absurd (by simpa using hc) hfa
      · exact hc
    obtain ⟨f, hfind⟩ := Option.isSome_iff_exists.mp hsome
    have hfmem : f ∈ feeds := List.mem_of_find?_eq_some hfind
    have hfaddr : f.address = a.feedAddress := by
      simpa using List.find?_some hfind
    have hlt : a.lastUpdate < f.timestamp := hfresh a hmem f hfmem hfaddr.symm
    have hra : refreshAsset feeds a = { a with price := f.price, lastUpdate := f.timestamp } := by
      rw [refreshAsset, if_neg (by simp [hfa]), hfind]
    rw [hra] at hget2
    refine ⟨fun hc => absurd hc hfa,
      fun _ => ⟨f, hfind, hfmem, hfaddr, hget2, hlt⟩, ?_⟩
    intro b hb
    rw [hget2] at hb
    rw [← Option.some.inj hb]
    exact Nat.le_of_lt hlt

/-- C7 witness: refreshing the initialized reference list from the feed set
holding feed 3 at price 60000, timestamp 7, succeeds and keeps the length. -/
theorem updatePrices_success_refreshes_witness :
    updatePrices sampleList [⟨3, 60000, 7⟩] = .ok sampleRefreshed ∧
    sampleRefreshed.assets.length = sampleList.assets.length := by
  have h := updatePrices_success_refreshes sampleList [⟨3, 60000, 7⟩]
    sampleRefreshed (by decide) (by decide)
  exact ⟨by decide, h.1⟩

/-- C8 counterexample: the claim states the initialized capacity-4 list has
its two entries at price 0 (base unit) and 10000 (collateral) respectively;
the Initialize test asserts the opposite order: the base-unit (USD) entry at
index 0 has price 10000 and the collateral entry at index 1 has price 0. -/
theorem scenario_initial_prices_counterexample :
    (sampleInit.toOption.map fun l => l.assets.map Asset.price) ≠ some [0, 10000] ∧
    (sampleInit.toOption.map fun l => l.assets.map Asset.price) = some [10000, 0] := by
  exact ⟨by decide, by decide⟩

/-- C8 (amended): in the reference scenario the capacity-4 list initializes
with the base-unit entry at price 10000 and the collateral entry at price 0;
adding one asset with maxSupply 30000 makes the length 3 with the new entry
at price 0 and supply 0; the subsequent setAssetSupply with newSupply 30001
on that entry fails with the over-limit error and its supply stays 0. -/
theorem scenario_reference_run :
    sampleInit = .ok sampleList ∧
    sampleList.capacity = 4 ∧
    sampleList.assets.map Asset.price = [10000, 0] ∧
    addNewAsset sampleList 100 4 5 6 30000 = .ok sampleList3 ∧
    sampleList3.assets.length = 3 ∧
    sampleList3.assets.map Asset.price = [10000, 0, 0] ∧
    setAssetSupply sampleList3 200 4 30001 = .error .supplyExceedsMax ∧
    (step sampleList3 (Op.setAssetSupply 200 4 30001)).assets.map Asset.supply = [0, 0, 0] := by
  refine ⟨by decide, by decide, by decide, by decide, by decide, by decide, by decide, by decide⟩

/-- C9: the embedded oracle IDL declares exactly the five instructions
initialize, setPrice, setTrading, setTwap and setConfidence, each acting on
the single mutable non-signer price account, with the stated integer
argument types, and exactly the three enumerations PriceStatus, CorpAction
and PriceType with their stated variants. -/
theorem pyth_idl_contract :
    pythIdl.instructions.map IdlInstruction.name =
      ["initialize", "setPrice", "setTrading", "setTwap", "setConfidence"] ∧
    (∀ i ∈ pythIdl.instructions, i.accounts = [⟨"price", true, false⟩]) ∧
    pythIdl.instructions.map IdlInstruction.args =
      [[⟨"price", "i64"⟩, ⟨"expo", "i32"⟩, ⟨"conf", "u64"⟩],
       [⟨"price", "i64"⟩], [⟨"status", "u8"⟩], [⟨"value", "u64"⟩],
       [⟨"value", "u64"⟩]] ∧
    pythIdl.types =
      [⟨"PriceStatus", "enum", ["Unknown", "Trading", "Halted", "Auction"]⟩,
       ⟨"CorpAction", "enum", ["NoCorpAct"]⟩,
       ⟨"PriceType", "enum", ["Unknown", "Price", "TWAP", "Volatility"]⟩] := by
  refine ⟨rfl, by decide, rfl, rfl⟩

/-- C10: any successful initializeAssetsList yields exactly two entries and
both carry maxSupply equal to the maximum unsigned 64-bit value 2 ^ 64 - 1,
a default the specification text never states. -/
theorem initial_entries_maxSupply_u64_max (l : AssetsList)
    (ct ctf ad ea ut d : Nat) (l2 : AssetsList)
    (hok : initializeAssetsList l ct ctf ad ea ut d = .ok l2) :
    l2.assets.map Asset.maxSupply = [2 ^ 64 - 1, 2 ^ 64 - 1] := by
  rw [initializeAssetsList] at hok
  split at hok
  · exact Except.noConfusion hok
  · rw [← Except.ok.inj hok]
    rfl

/-- C10 witness: the two entries of the initialized reference list both have
maxSupply 2 ^ 64 - 1. -/
theorem initial_entries_maxSupply_u64_max_witness :
    sampleList.assets.map Asset.maxSupply = [2 ^ 64 - 1, 2 ^ 64 - 1] :=
  initial_entries_maxSupply_u64_max (createAssetsList 4) 2 3 100 200 1 6
    sampleList (by decide)

end HyperSol
